import Mathlib

/-!
Verification development for the SQLite2MySQL migration engine.

The definitions below are a shallow embedding of the Python sources:
  migrate.py        (TypeMapper, DuplicateResolver, Validator, Migrator)
  backend/main.py   (TypeMapper, run_migration_task)
Rows of a table are modelled as explicit lists, SQL cell values as an
inductive type, and each sqlite cursor execute call is modelled by a
function that first checks the parameter binding arity, exactly as the
sqlite3 driver does, and then performs the corresponding pure relational
operation. Fallible steps return Except values; the catch blocks of the
sources are modelled by explicit matches on those values.
-/

namespace SM

/-- SQL cell value as surfaced by the sqlite3 driver: NULL, an integer, or a text. -/
inductive Val where
  | null : Val
  | intV : Int → Val
  | strV : String → Val
deriving DecidableEq

/-- Python str rendering of a cell value, as used inside f-strings of migrate.py. -/
def Val.display : Val → String
  | Val.null => "None"
  | Val.intV n => toString n
  | Val.strV s => s

/-- ASCII uppercase of one character, the effect of Python str.upper on the
characters that occur in SQLite type strings and DDL literals. -/
def upChar (c : Char) : Char :=
  if 97 ≤ c.toNat ∧ c.toNat ≤ 122 then Char.ofNat (c.toNat - 32) else c

/-- Python str.upper restricted to ASCII text. -/
def pyUpper (s : String) : String := String.mk (s.toList.map upChar)

/-- a single quote character as a string, used by the default clause check. -/
def squote : String := String.mk [Char.ofNat 39]

/-- Boolean substring test: the Python operator needle in hay on strings. -/
def strContains (hay needle : String) : Bool :=
  hay.toList.tails.any (fun t => needle.toList.isPrefixOf t)

/-- TypeMapper.MAPPING of migrate.py and backend/main.py, in Python dict
insertion order (Python dicts iterate in insertion order). -/
def MAPPING : List (String × String) :=
  [("INTEGER", "INT"),
   ("INT", "INT"),
   ("TINYINT", "TINYINT"),
   ("SMALLINT", "SMALLINT"),
   ("MEDIUMINT", "MEDIUMINT"),
   ("BIGINT", "BIGINT"),
   ("UNSIGNED BIG INT", "BIGINT UNSIGNED"),
   ("INT2", "SMALLINT"),
   ("INT8", "BIGINT"),
   ("TEXT", "LONGTEXT"),
   ("CLOB", "LONGTEXT"),
   ("BLOB", "LONGBLOB"),
   ("REAL", "DOUBLE"),
   ("DOUBLE", "DOUBLE"),
   ("DOUBLE PRECISION", "DOUBLE"),
   ("FLOAT", "FLOAT"),
   ("NUMERIC", "DECIMAL(10,5)"),
   ("BOOLEAN", "BOOLEAN"),
   ("DATETIME", "DATETIME"),
   ("DATE", "DATE"),
   ("VARCHAR", "VARCHAR"),
   ("NVARCHAR", "VARCHAR"),
   ("CHARACTER", "CHAR")]

/-- first MAPPING rule whose key is a substring of the uppercased source type;
this is the for key, value in MAPPING.items() loop of TypeMapper.map_type. -/
def findRule (u : String) : Option String :=
  (MAPPING.find? (fun kv => strContains u kv.1)).map (fun kv => kv.2)

/-- TypeMapper.map_type. The CLI variant in migrate.py also receives a column
name and a table name but never uses them; the backend variant omits them, so
the one-argument form embeds both. -/
def map_type (sqliteType : String) : String :=
  let u := pyUpper sqliteType
  if strContains u "VARCHAR" then
    if !strContains u "(" then "VARCHAR(255)" else u
  else
    match findRule u with
    | some v => v
    | none => "LONGTEXT"

/-- column descriptor as read from PRAGMA table_info: name, declared type,
notnull flag, default value literal, primary key ordinal (0 = not primary). -/
structure Col where
  name : String
  type : String
  notnull : Nat
  dflt : Option String
  pk : Nat
deriving DecidableEq

/-- Python str.isdigit restricted to the ASCII digits that occur in DDL. -/
def isdigit (s : String) : Bool := !s.isEmpty && s.toList.all Char.isDigit

/-- default clause synthesis of Migrator.create_mysql_schema. -/
def defaultStr (c : Col) : String :=
  match c.dflt with
  | none => ""
  | some d =>
    if pyUpper d == "CURRENT_TIMESTAMP" then "DEFAULT CURRENT_TIMESTAMP"
    else if d.startsWith squote && d.endsWith squote then "DEFAULT " ++ d
    else if isdigit d then "DEFAULT " ++ d
    else ""

/-- nullability clause synthesis of Migrator.create_mysql_schema. -/
def nullStr (c : Col) : String := if c.notnull != 0 then "NOT NULL" else "NULL"

/-- extra qualifier of Migrator.create_mysql_schema: AUTO_INCREMENT is attached
whenever the pk flag is truthy and the uppercased mapped type contains INT. -/
def colExtra (c : Col) : String :=
  if c.pk != 0 && strContains (pyUpper (map_type c.type)) "INT" then "AUTO_INCREMENT" else ""

/-- pk_cols accumulated by the column loop of Migrator.create_mysql_schema:
every column with a truthy pk flag, in declaration order. -/
def pkColsOf (cols : List Col) : List String :=
  (cols.filter (fun c => c.pk != 0)).map (fun c => c.name)

/-- one column definition line of the synthesized CREATE TABLE. -/
def colDef (c : Col) : String :=
  "`" ++ c.name ++ "` " ++ map_type c.type ++ " " ++ nullStr c ++ " " ++
    defaultStr c ++ " " ++ colExtra c

/-- the CREATE TABLE statement assembled by Migrator.create_mysql_schema. -/
def createQuery (tn : String) (cols : List Col) : String :=
  let body := String.intercalate ",\n  " (cols.map colDef)
  let pks := pkColsOf cols
  let pkClause :=
    if pks.isEmpty then ""
    else ",\n  PRIMARY KEY (" ++
      String.intercalate ", " (pks.map (fun c => "`" ++ c ++ "`")) ++ ")"
  "CREATE TABLE IF NOT EXISTS `" ++ tn ++ "` (\n  " ++ body ++ pkClause ++
    "\n) ENGINE=InnoDB DEFAULT CHARSET=utf8mb4;"

/-- one row of a SQLite table: the intrinsic rowid and the named cells. -/
structure Row where
  rowid : Nat
  cells : List (String × Val)
deriving DecidableEq

/-- value of a named column of a row; absent columns read as NULL. -/
def getCell (r : Row) (c : String) : Val :=
  match r.cells.find? (fun p => p.1 == c) with
  | some p => p.2
  | none => Val.null

/-- projection of a row to a constraint group: the tuple of values of the
group columns, in group order. -/
def proj (cols : List String) (r : Row) : List Val := cols.map (getCell r)

/-- rows of the table whose projection equals the given value combination:
the WHERE clause built by DuplicateResolver.resolve from one dupe row
(equality for non-NULL values, IS NULL for NULL values; grouping semantics). -/
def matchingRows (t : List Row) (cols : List String) (combo : List Val) : List Row :=
  t.filter (fun r => decide (proj cols r = combo))

/-- number of rows sharing the value combination. -/
def countCombo (t : List Row) (cols : List String) (combo : List Val) : Nat :=
  (matchingRows t cols combo).length

/-- result set of SELECT cols, COUNT from t GROUP BY cols HAVING COUNT greater
than 1: each violating value combination, listed once. -/
def dupCombos (t : List Row) (cols : List String) : List (List Val) :=
  ((t.map (proj cols)).dedup).filter (fun combo => decide (2 ≤ countCombo t cols combo))

/-- DuplicateResolver.find_duplicates: empty column list short-circuits to an
empty result, and an OperationalError raised by the grouping query (modelled by
the queryFails flag) is swallowed into an empty result as well. -/
def find_duplicates (t : List Row) (cols : List String) (queryFails : Bool) :
    List (List Val) :=
  if cols.isEmpty then []
  else if queryFails then []
  else dupCombos t cols

/-- rowid returned by SELECT rowid ... ORDER BY rowid ASC LIMIT 1: the least
rowid among the matching rows, none when no row matches. -/
def minRowid : List Row → Option Nat
  | [] => none
  | r :: rs =>
    match minRowid rs with
    | none => some r.rowid
    | some m => some (min r.rowid m)

/-- vals of DuplicateResolver.resolve: the non-NULL values of the dupe row,
passed as query parameters. -/
def comboParams (combo : List Val) : List Val :=
  combo.filter (fun v => decide (v ≠ Val.null))

/-- number of ? placeholders in the cols_vals fragment: one per non-NULL value
of the dupe row (NULL columns are written as IS NULL, without a placeholder). -/
def comboPlaceholders (combo : List Val) : Nat :=
  (combo.filter (fun v => decide (v ≠ Val.null))).length

/-- model of sqlite3 cursor execute: the driver first checks that the number
of supplied parameters equals the number of placeholders and raises a
ProgrammingError otherwise; only then does the query run. -/
def checkedExec {α : Type} (placeholders : Nat) (params : List Val) (res : α) :
    Except String α :=
  if placeholders = params.length then Except.ok res
  else Except.error "Incorrect number of bindings supplied"

/-- DELETE FROM t WHERE cols_vals AND rowid != keep: the remaining rows. -/
def deleteDupes (t : List Row) (cols : List String) (combo : List Val) (keep : Nat) :
    List Row :=
  t.filter (fun r => !(decide (proj cols r = combo) && r.rowid != keep))

/-- write a new value into one named cell of a row. -/
def setCell (r : Row) (c : String) (v : Val) : Row :=
  { r with cells := r.cells.map (fun p => if p.1 == c then (p.1, v) else p) }

/-- UPDATE t SET c = v WHERE rowid = rid. -/
def updateRow (t : List Row) (rid : Nat) (c : String) (v : Val) : List Row :=
  t.map (fun r => if r.rowid == rid then setCell r c v else r)

/-- for-loop body of the rename strategy: for each non-keeper rowid, in order,
fetch the current value of the first constraint column, append the strictly
increasing suffix, and write it back, logging each rename. -/
def renameLoop (tn col0 : String) : Nat → List Row → List String → List Nat →
    Except String (List Row × List String)
  | _, t, resols, [] => Except.ok (t, resols)
  | i, t, resols, rid :: rest =>
    match checkedExec 1 [Val.intV (Int.ofNat rid)] (t.find? (fun r => r.rowid == rid)) with
    | Except.error e => Except.error e
    | Except.ok none => Except.error "NoneType object is not subscriptable"
    | Except.ok (some r) =>
      let origVal := getCell r col0
      let newVal := Val.display origVal ++ "_dup_" ++ toString i
      match checkedExec 2 [Val.strV newVal, Val.intV (Int.ofNat rid)]
          (updateRow t rid col0 (Val.strV newVal)) with
      | Except.error e => Except.error e
      | Except.ok t' =>
        renameLoop tn col0 (i + 1) t'
          (resols ++ ["Renomeada duplicata em " ++ tn ++ ": " ++ Val.display origVal ++
            " -> " ++ newVal]) rest

/-- human readable rendering of the vals list in the removal log message. -/
def valsString (vs : List Val) : String :=
  "[" ++ String.intercalate ", " (vs.map Val.display) ++ "]"

/-- body of the per-dupe try block of DuplicateResolver.resolve: select the
keeper (lowest rowid), then either delete the other members (remove) or rename
them (rename). Each cursor execute is arity-checked; note that the rename
branch passes only vals to a query that also carries a rowid placeholder. -/
def resolveDupe (strategy tn : String) (t : List Row) (cols : List String)
    (combo : List Val) : Except String (List Row × List String) :=
  match checkedExec (comboPlaceholders combo) (comboParams combo)
      (minRowid (matchingRows t cols combo)) with
  | Except.error e => Except.error e
  | Except.ok none => Except.ok (t, [])
  | Except.ok (some keep) =>
    if strategy == "remove" then
      match checkedExec (comboPlaceholders combo + 1)
          (comboParams combo ++ [Val.intV (Int.ofNat keep)])
          (deleteDupes t cols combo keep) with
      | Except.error e => Except.error e
      | Except.ok t' =>
        Except.ok (t', ["Removidas " ++ toString (t.length - t'.length) ++
          " duplicatas de " ++ tn ++ " para " ++ valsString (comboParams combo)])
    else if strategy == "rename" then
      match checkedExec (comboPlaceholders combo + 1) (comboParams combo)
          (((matchingRows t cols combo).filter (fun r => r.rowid != keep)).map Row.rowid) with
      | Except.error e => Except.error e
      | Except.ok ids =>
        match cols.head? with
        | none => Except.error "IndexError: list index out of range"
        | some col0 => renameLoop tn col0 1 t [] ids
    else Except.ok (t, [])

/-- mutable state threaded through DuplicateResolver.resolve: the source table
contents, the resolutions list it returns, and the messages sent to
logger.error by the per-dupe except block. -/
structure RState where
  table : List Row
  resolutions : List String
  errors : List String
deriving DecidableEq

/-- one iteration of the for dupe in dupes loop: the try block either succeeds,
updating the table and appending its log lines to resolutions, or raises, in
which case the error is logged and the loop continues. -/
def stepDupe (strategy tn : String) (cols : List String) (st : RState)
    (combo : List Val) : RState :=
  match resolveDupe strategy tn st.table cols combo with
  | Except.ok (t', msgs) =>
    { table := t', resolutions := st.resolutions ++ msgs, errors := st.errors }
  | Except.error e =>
    { table := st.table, resolutions := st.resolutions,
      errors := st.errors ++ ["Erro ao resolver duplicata em " ++ tn ++ ": " ++ e] }

/-- processing of one constraint group: find_duplicates on the current table
state, then the per-dupe loop. detectFails tells whether the grouping query of
this group raises an OperationalError. -/
def resolveGroup (strategy tn : String) (detectFails : List String → Bool)
    (st : RState) (cols : List String) : RState :=
  (find_duplicates st.table cols (detectFails cols)).foldl
    (stepDupe strategy tn cols) st

/-- DuplicateResolver.resolve for one table: every constraint group (unique
indexes plus the supplementary well-known groups), in order. -/
def resolve (strategy tn : String) (t : List Row) (groups : List (List String))
    (detectFails : List String → Bool) : RState :=
  groups.foldl (resolveGroup strategy tn detectFails) ⟨t, [], []⟩

/-- final commit guard of DuplicateResolver.resolve: the source connection is
committed only when the resolutions list is nonempty. -/
def resolveCommitted (strategy tn : String) (t : List Row)
    (groups : List (List String)) (detectFails : List String → Bool) : Bool :=
  !(resolve strategy tn t groups detectFails).resolutions.isEmpty

/-- Validator.validate_counts: COUNT on the source equals COUNT on the target. -/
def validate_counts (sqliteCount mysqlCount : Nat) : Bool :=
  sqliteCount == mysqlCount

/-- target-side statements issued by Migrator.run, in order: DDL (drop, create
and index statements) per table, batched inserts per table, the COUNT reads of
the validation phase, and the explicit transaction calls. -/
inductive Ev where
  | ddl : String → Ev
  | insertRows : String → Ev
  | readCount : String → Ev
  | commit : Ev
  | rollback : Ev
deriving DecidableEq

/-- environment of one migration run: the table list of the source, an oracle
telling which table raises a fatal error during its data transfer, the
per-table COUNT results on both sides after transfer, and the duplicate
resolution options together with the source rows and constraint groups the
resolver works on. -/
structure RunEnv where
  tables : List String
  transferFails : String → Bool
  srcCount : String → Nat
  tgtCount : String → Nat
  resolveDuplicates : Bool
  strategy : String
  srcTable : List Row
  groups : List (List String)

/-- migration loop of Migrator.run: per table, DDL then data transfer; a fatal
transfer error stops the loop after the DDL of the failing table. Returns the
emitted events, the tables recorded as success, and the failing table if any. -/
def migratePhase (fails : String → Bool) : List String →
    List Ev × List String × Option String
  | [] => ([], [], none)
  | t :: ts =>
    if fails t then ([Ev.ddl t], [], some t)
    else
      match migratePhase fails ts with
      | (evs, done, bad) => (Ev.ddl t :: Ev.insertRows t :: evs, t :: done, bad)

/-- migration report assembled by Migrator.run. -/
structure Report where
  tableStatus : List (String × String)
  validation : List (String × String)
  dupResolutions : List String
  errors : List String
  status : String
deriving DecidableEq

/-- Migrator.run: optional duplicate resolution against the source, then the
per-table DDL and transfer loop, then count validation, then a single commit
and status completed; any fatal exception instead triggers a single rollback
and status failed. The connection is opened with autocommit disabled. -/
def runModel (env : RunEnv) : Report × List Ev :=
  let dupLog :=
    if env.resolveDuplicates then
      (resolve env.strategy "user" env.srcTable env.groups (fun _ => false)).resolutions
    else []
  match migratePhase env.transferFails env.tables with
  | (evs, done, none) =>
    let valids := env.tables.map (fun t =>
      (t, if validate_counts (env.srcCount t) (env.tgtCount t) then "ok"
          else "count_mismatch"))
    ({ tableStatus := done.map (fun t => (t, "success")),
       validation := valids,
       dupResolutions := dupLog,
       errors := [],
       status := "completed" },
     evs ++ env.tables.map Ev.readCount ++ [Ev.commit])
  | (evs, done, some bad) =>
    ({ tableStatus := done.map (fun t => (t, "success")),
       validation := [],
       dupResolutions := dupLog,
       errors := ["Erro ao inserir dados na tabela " ++ bad],
       status := "failed" },
     evs ++ [Ev.rollback])

/-- scenario table of the specification: user rows (1, admin), (2, user1),
(3, admin) with a login uniqueness group. -/
def userRow1 : Row :=
  ⟨1, [("id", Val.intV 1), ("login", Val.strV "admin"),
       ("email", Val.strV "a@x"), ("is_admin", Val.intV 1)]⟩

def userRow2 : Row :=
  ⟨2, [("id", Val.intV 2), ("login", Val.strV "user1"),
       ("email", Val.strV "u@x"), ("is_admin", Val.intV 0)]⟩

def userRow3 : Row :=
  ⟨3, [("id", Val.intV 3), ("login", Val.strV "admin"),
       ("email", Val.strV "a2@x"), ("is_admin", Val.intV 0)]⟩

def userT : List Row := [userRow1, userRow2, userRow3]

/-- the user table without the duplicate row: no uniqueness violation. -/
def userClean : List Row := [userRow1, userRow2]

/-- effect on the table contents of resolving one violating value combination
under the remove strategy: keep only the lowest-rowid matching row. This is the
relational content of the ok branch of resolveDupe with strategy remove. -/
def removeStep (cols : List String) (t : List Row) (combo : List Val) : List Row :=
  match minRowid (matchingRows t cols combo) with
  | none => t
  | some k => deleteDupes t cols combo k

/-- effect on the table contents of the whole per-dupe loop for one constraint
group under the remove strategy. -/
def removeFold (cols : List String) (t : List Row) (D : List (List Val)) : List Row :=
  D.foldl (removeStep cols) t

/-- two integer columns that are both part of the primary key: PRAGMA
table_info reports pk ordinals 1 and 2 for a composite key. -/
def colA : Col := ⟨"a", "INT", 1, none, 1⟩

def colB : Col := ⟨"b", "INT", 1, none, 2⟩

def compositeCols : List Col := [colA, colB]

/-- two-table run in which every transfer succeeds and all counts agree. -/
def env4 : RunEnv :=
  { tables := ["a", "b"], transferFails := fun _ => false,
    srcCount := fun _ => 1, tgtCount := fun _ => 1,
    resolveDuplicates := false, strategy := "remove", srcTable := [], groups := [] }

/-- one-table run whose transfer succeeds but whose source and target counts
disagree after the run. -/
def env8 : RunEnv :=
  { tables := ["u"], transferFails := fun _ => false,
    srcCount := fun _ => 3, tgtCount := fun _ => 2,
    resolveDuplicates := false, strategy := "remove", srcTable := [], groups := [] }

/-! Helper lemmas. -/

lemma checkedExec_ok {α : Type} (n : Nat) (ps : List Val) (res : α)
    (h : n = ps.length) : checkedExec n ps res = Except.ok res := by
  simp [checkedExec, h]

lemma comboPlaceholders_eq (c : List Val) :
    comboPlaceholders c = (comboParams c).length := rfl

/-! Claim theorems. -/

/-- C1: evaluation of map_type on the whole integer family. Every one of the
seven source types is mapped to INT, because the INT entry precedes the
specific entries in MAPPING and is a substring of each of them; the entries
TINYINT, SMALLINT, MEDIUMINT, BIGINT, INT2, INT8 and UNSIGNED BIG INT of the
rule table are unreachable, so the mapping the claim lists never happens. -/
theorem C1_integer_family_eval :
    map_type "TINYINT" = "INT" ∧ map_type "SMALLINT" = "INT" ∧
    map_type "MEDIUMINT" = "INT" ∧ map_type "BIGINT" = "INT" ∧
    map_type "INT2" = "INT" ∧ map_type "INT8" = "INT" ∧
    map_type "UNSIGNED BIG INT" = "INT" ∧
    findRule "TINYINT" = some "INT" := by decide

/-- C2: evaluation of the rename strategy on the specification scenario. The
rename branch binds only the combo values to a query that also carries a rowid
placeholder, so the driver raises a binding arity error; the error is caught
and logged, no row is renamed (row 3 still has login admin), the resolutions
list stays empty and the source connection is never committed. -/
theorem C2_rename_strategy_eval :
    resolve "rename" "user" userT [["login"]] (fun _ => false) =
      { table := userT, resolutions := [],
        errors := ["Erro ao resolver duplicata em user: Incorrect number of bindings supplied"] } ∧
    ((resolve "rename" "user" userT [["login"]] (fun _ => false)).table.find?
        (fun r => r.rowid == 3)).map (fun r => getCell r "login") =
      some (Val.strV "admin") ∧
    resolveCommitted "rename" "user" userT [["login"]] (fun _ => false) = false := by
  decide

/-- C5 counterexample: for the composite integer primary key table
compositeCols (pk ordinals 1 and 2), every primary key column still carries
AUTO_INCREMENT in the synthesized DDL, contradicting the claim that a
composite primary key emits none. -/
theorem C5_composite_pk_cex :
    (pkColsOf compositeCols).length = 2 ∧
    colExtra colA = "AUTO_INCREMENT" ∧ colExtra colB = "AUTO_INCREMENT" ∧
    strContains (createQuery "t" compositeCols) "AUTO_INCREMENT" = true ∧
    ¬(∀ c ∈ compositeCols, colExtra c ≠ "AUTO_INCREMENT") := by decide

/-- C5 amended: AUTO_INCREMENT is emitted for a column exactly when its pk
flag is truthy and the uppercased mapped type contains INT as a substring;
whether the primary key is composite plays no role. -/
theorem C5_auto_increment_iff (c : Col) :
    colExtra c = "AUTO_INCREMENT" ↔
      (c.pk ≠ 0 ∧ strContains (pyUpper (map_type c.type)) "INT" = true) := by
  unfold colExtra
  by_cases hpk : c.pk = 0
  · simp [hpk]
  · by_cases hint : strContains (pyUpper (map_type c.type)) "INT" = true
    · simp [hpk, hint, bne_iff_ne]
    · simp [hpk, hint, bne_iff_ne]

/-- C6: map_type is pure and total with exactly one match path per input: the
VARCHAR special case first (returning the uppercase-normalized input unchanged
when it carries a length qualifier and VARCHAR(255) otherwise), else the first
matching MAPPING rule, else the LONGTEXT fallback. -/
theorem C6_map_type_single_path (s : String) :
    (strContains (pyUpper s) "VARCHAR" = true → strContains (pyUpper s) "(" = true →
      map_type s = pyUpper s) ∧
    (strContains (pyUpper s) "VARCHAR" = true → strContains (pyUpper s) "(" = false →
      map_type s = "VARCHAR(255)") ∧
    (strContains (pyUpper s) "VARCHAR" = false → ∀ v, findRule (pyUpper s) = some v →
      map_type s = v) ∧
    (strContains (pyUpper s) "VARCHAR" = false → findRule (pyUpper s) = none →
      map_type s = "LONGTEXT") ∧
    ((if strContains (pyUpper s) "VARCHAR" = true then 1 else 0) +
      (if strContains (pyUpper s) "VARCHAR" = false ∧ (findRule (pyUpper s)).isSome = true
        then 1 else 0) +
      (if strContains (pyUpper s) "VARCHAR" = false ∧ findRule (pyUpper s) = none
        then 1 else 0) = (1 : Nat)) := by
  unfold map_type
  cases hv : strContains (pyUpper s) "VARCHAR" with
  | true =>
    cases hp : strContains (pyUpper s) "(" <;> simp [hv, hp]
  | false =>
    cases hr : findRule (pyUpper s) with
    | none => simp [hv, hr]
    | some v => simp [hv, hr]

/-- C6 witness at the concrete input varchar(20). -/
theorem C6_map_type_single_path_witness :
    strContains (pyUpper "varchar(20)") "VARCHAR" = true ∧
    strContains (pyUpper "varchar(20)") "(" = true ∧
    map_type "varchar(20)" = pyUpper "varchar(20)" :=
  ⟨by decide, by decide,
    (C6_map_type_single_path "varchar(20)").1 (by decide) (by decide)⟩

lemma migratePhase_events_clean (f : String → Bool) (ts : List String) :
    Ev.commit ∉ (migratePhase f ts).1 ∧ Ev.rollback ∉ (migratePhase f ts).1 := by
  induction ts with
  | nil => simp [migratePhase]
  | cons t ts ih =>
    by_cases hf : f t = true
    · simp [migratePhase, hf]
    · rcases hm : migratePhase f ts with ⟨evs, done, bad⟩
      rw [hm] at ih
      simp only [migratePhase, hf, if_false, hm, Bool.false_eq_true, ite_false]
      simp only [List.mem_cons] at *
      constructor
      · intro h
        rcases h with h | h | h
        · cases h
        · cases h
        · exact ih.1 h
      · intro h
        rcases h with h | h | h
        · cases h
        · cases h
        · exact ih.2 h

lemma migratePhase_none_of_ok (f : String → Bool) (ts : List String)
    (h : ∀ t ∈ ts, f t = false) : (migratePhase f ts).2.2 = none := by
  induction ts with
  | nil => rfl
  | cons t ts ih =>
    have hf : f t = false := h t (List.mem_cons_self t ts)
    have hrest := ih (fun x hx => h x (List.mem_cons_of_mem t hx))
    rcases hm : migratePhase f ts with ⟨evs, done, bad⟩
    rw [hm] at hrest
    simp only [migratePhase, hf, Bool.false_eq_true, if_false, hm, ite_false]
    exact hrest

/-- C4 counterexample: in the two-table run env4, the full target-side trace
has its single commit after both validation count reads; no commit precedes
the validation read of table a, so the DDL and data transfer of table a are
not committed before its validation reads run. -/
theorem C4_per_table_commit_cex :
    (runModel env4).2 =
      [Ev.ddl "a", Ev.insertRows "a", Ev.ddl "b", Ev.insertRows "b",
       Ev.readCount "a", Ev.readCount "b", Ev.commit] ∧
    Ev.readCount "a" ∈ (runModel env4).2 ∧
    ((runModel env4).2.takeWhile (fun e => e != Ev.readCount "a")).all
        (fun e => e != Ev.commit) = true := by decide

/-- C4 amended: the run issues exactly one explicit target-side transaction
call: on success a single commit as the very last statement, after all tables
and after every validation read; on a fatal failure a single rollback with no
commit anywhere in the trace, so all uncommitted statements of the whole run,
not only those of the failing table, are discarded. -/
theorem C4_whole_run_transaction (env : RunEnv) :
    ((runModel env).1.status = "completed" ∧
      ∃ pre, (runModel env).2 = pre ++ [Ev.commit] ∧ Ev.commit ∉ pre ∧
        ∀ t, Ev.readCount t ∈ (runModel env).2 → Ev.readCount t ∈ pre) ∨
    ((runModel env).1.status = "failed" ∧ Ev.commit ∉ (runModel env).2 ∧
      ∃ pre, (runModel env).2 = pre ++ [Ev.rollback]) := by
  obtain ⟨h1, h2⟩ := migratePhase_events_clean env.transferFails env.tables
  rcases hm : migratePhase env.transferFails env.tables with ⟨evs, done, bad⟩
  rw [hm] at h1 h2
  cases bad with
  | none =>
    left
    have htr : (runModel env).2 =
        (evs ++ env.tables.map Ev.readCount) ++ [Ev.commit] := by
      simp [runModel, hm, List.append_assoc]
    refine ⟨by simp [runModel, hm], evs ++ env.tables.map Ev.readCount, htr, ?_, ?_⟩
    · intro hmem
      rcases List.mem_append.mp hmem with h | h
      · exact h1 h
      · rcases List.mem_map.mp h with ⟨x, _, hx⟩
        cases hx
    · intro t ht
      rw [htr] at ht
      rcases List.mem_append.mp ht with h | h
      · exact h
      · simp at h
  | some bad =>
    right
    have htr : (runModel env).2 = evs ++ [Ev.rollback] := by
      simp [runModel, hm]
    refine ⟨by simp [runModel, hm], ?_, evs, htr⟩
    rw [htr]
    intro hmem
    rcases List.mem_append.mp hmem with h | h
    · exact h1 h
    · simp at h

/-- C7: an error raised inside the per-dupe try block is caught: the state
keeps its table and resolutions, the error is appended to the log, and the
loop continues with the remaining dupes; moreover the run status of the
orchestrator is failed exactly when the migration phase itself fails, so
duplicate-resolution errors never abort the run. -/
theorem C7_group_error_isolated (strategy tn : String) (cols : List String)
    (st : RState) (combo : List Val) (e : String)
    (herr : resolveDupe strategy tn st.table cols combo = Except.error e) :
    stepDupe strategy tn cols st combo =
      { table := st.table, resolutions := st.resolutions,
        errors := st.errors ++ ["Erro ao resolver duplicata em " ++ tn ++ ": " ++ e] } ∧
    (∀ rest : List (List Val),
      (combo :: rest).foldl (stepDupe strategy tn cols) st =
        rest.foldl (stepDupe strategy tn cols)
          { table := st.table, resolutions := st.resolutions,
            errors := st.errors ++ ["Erro ao resolver duplicata em " ++ tn ++ ": " ++ e] }) ∧
    (∀ env : RunEnv, ((runModel env).1.status = "failed" ↔
        ((migratePhase env.transferFails env.tables).2.2).isSome = true)) := by
  have hstep : stepDupe strategy tn cols st combo =
      { table := st.table, resolutions := st.resolutions,
        errors := st.errors ++ ["Erro ao resolver duplicata em " ++ tn ++ ": " ++ e] } := by
    unfold stepDupe
    rw [herr]
  refine ⟨hstep, ?_, ?_⟩
  · intro rest
    rw [List.foldl_cons, hstep]
  · intro env
    rcases hm : migratePhase env.transferFails env.tables with ⟨evs, done, bad⟩
    cases bad with
    | none => simp [runModel, hm]
    | some bad => simp [runModel, hm]

/-- C7 witness: the rename branch on the scenario table raises the binding
arity error, which is caught and logged while table and resolutions survive. -/
theorem C7_group_error_isolated_witness :
    resolveDupe "rename" "user" (RState.mk userT [] []).table ["login"]
        [Val.strV "admin"] = Except.error "Incorrect number of bindings supplied" ∧
    stepDupe "rename" "user" ["login"] (RState.mk userT [] []) [Val.strV "admin"] =
      { table := userT, resolutions := [],
        errors := [] ++ ["Erro ao resolver duplicata em " ++ "user" ++ ": " ++
          "Incorrect number of bindings supplied"] } :=
  ⟨by rfl,
    (C7_group_error_isolated "rename" "user" ["login"] (RState.mk userT [] [])
      [Val.strV "admin"] "Incorrect number of bindings supplied" (by rfl)).1⟩

/-- C8: validate_counts is true exactly when the two counts agree; in a run
whose transfers all succeed, the run completes, every table with disagreeing
counts is recorded in the report as count_mismatch, and every table with
agreeing counts is recorded as ok. -/
theorem C8_count_validation (env : RunEnv)
    (hok : ∀ t ∈ env.tables, env.transferFails t = false) :
    (∀ a b : Nat, validate_counts a b = true ↔ a = b) ∧
    (runModel env).1.status = "completed" ∧
    (∀ t ∈ env.tables, env.srcCount t ≠ env.tgtCount t →
        (t, "count_mismatch") ∈ (runModel env).1.validation) ∧
    (∀ t ∈ env.tables, env.srcCount t = env.tgtCount t →
        (t, "ok") ∈ (runModel env).1.validation) := by
  have hnone := migratePhase_none_of_ok env.transferFails env.tables hok
  rcases hm : migratePhase env.transferFails env.tables with ⟨evs, done, bad⟩
  rw [hm] at hnone
  simp only at hnone
  subst hnone
  refine ⟨?_, by simp [runModel, hm], ?_, ?_⟩
  · intro a b
    simp [validate_counts]
  · intro t ht hne
    simp only [runModel, hm]
    apply List.mem_map.mpr
    refine ⟨t, ht, ?_⟩
    simp [validate_counts, hne]
  · intro t ht heq
    simp only [runModel, hm]
    apply List.mem_map.mpr
    refine ⟨t, ht, ?_⟩
    simp [validate_counts, heq]

/-- C8 witness: the one-table run env8 has a count mismatch on table u, the
mismatch is recorded, and the run still completes. -/
theorem C8_count_validation_witness :
    (∀ t ∈ env8.tables, env8.transferFails t = false) ∧
    (runModel env8).1.status = "completed" ∧
    ("u", "count_mismatch") ∈ (runModel env8).1.validation :=
  ⟨by decide, (C8_count_validation env8 (by decide)).2.1,
    (C8_count_validation env8 (by decide)).2.2.1 "u" (by decide) (by decide)⟩

lemma find_duplicates_fails (t : List Row) (cols : List String) :
    find_duplicates t cols true = [] := by
  unfold find_duplicates
  by_cases h : cols.isEmpty <;> simp [h]

lemma resolveGroup_clean (strategy tn : String) (detF : List String → Bool)
    (st : RState) (g : List String) (h : dupCombos st.table g = []) :
    resolveGroup strategy tn detF st g = st := by
  unfold resolveGroup find_duplicates
  by_cases hg : g.isEmpty
  · simp [hg]
  · by_cases hq : detF g = true <;> simp [hg, hq, h]

/-- C9: on a table with no uniqueness violation in any constraint group, the
resolver returns an empty resolutions list and an empty error log, leaves the
table contents (hence the row count) unchanged, and never commits the source
connection, whatever the strategy. -/
theorem C9_no_violation_frame (strategy tn : String) (t : List Row)
    (groups : List (List String)) (detF : List String → Bool)
    (hclean : ∀ g ∈ groups, dupCombos t g = []) :
    resolve strategy tn t groups detF =
      { table := t, resolutions := [], errors := [] } ∧
    resolveCommitted strategy tn t groups detF = false := by
  have key : ∀ gs : List (List String), (∀ g ∈ gs, dupCombos t g = []) →
      gs.foldl (resolveGroup strategy tn detF) (RState.mk t [] []) = RState.mk t [] [] := by
    intro gs
    induction gs with
    | nil => intro _; rfl
    | cons g gs ih =>
      intro hall
      rw [List.foldl_cons,
        resolveGroup_clean strategy tn detF (RState.mk t [] []) g (hall g (by simp))]
      exact ih (fun x hx => hall x (List.mem_cons_of_mem g hx))
  constructor
  · exact key groups hclean
  · unfold resolveCommitted resolve
    rw [key groups hclean]
    rfl

/-- C9 witness: violation-free user table with the login and email groups. -/
theorem C9_no_violation_frame_witness :
    (∀ g ∈ [["login"], ["email"]], dupCombos userClean g = []) ∧
    resolve "remove" "user" userClean [["login"], ["email"]] (fun _ => false) =
      { table := userClean, resolutions := [], errors := [] } ∧
    resolveCommitted "remove" "user" userClean [["login"], ["email"]]
      (fun _ => false) = false :=
  ⟨by decide,
    (C9_no_violation_frame "remove" "user" userClean [["login"], ["email"]]
      (fun _ => false) (by decide)).1,
    (C9_no_violation_frame "remove" "user" userClean [["login"], ["email"]]
      (fun _ => false) (by decide)).2⟩

/-- C10: find_duplicates returns the empty list for an empty column list and
returns the empty list when the grouping query raises an operational error; a
failed detection query is then indistinguishable from a violation-free table,
and a group whose detection query fails leaves the resolution state exactly
unchanged, with nothing logged or recorded. -/
theorem C10_detection_silent (t tClean : List Row) (cols : List String) (q : Bool)
    (strategy tn : String) (st : RState)
    (hclean : dupCombos tClean cols = []) :
    find_duplicates t [] q = [] ∧
    find_duplicates t cols true = [] ∧
    find_duplicates t cols true = find_duplicates tClean cols false ∧
    (∀ detF : List String → Bool, detF cols = true →
        resolveGroup strategy tn detF st cols = st) := by
  refine ⟨rfl, find_duplicates_fails t cols, ?_, ?_⟩
  · rw [find_duplicates_fails t cols]
    unfold find_duplicates
    by_cases hg : cols.isEmpty <;> simp [hg, hclean]
  · intro detF hdf
    unfold resolveGroup
    rw [hdf, find_duplicates_fails]
    rfl

/-- C10 witness: the user table does have a login violation, yet a failing
detection query reports the same empty result as the violation-free table. -/
theorem C10_detection_silent_witness :
    dupCombos userT ["login"] = [[Val.strV "admin"]] ∧
    dupCombos userClean ["login"] = [] ∧
    find_duplicates userT ["login"] true = [] ∧
    find_duplicates userT ["login"] true = find_duplicates userClean ["login"] false ∧
    resolveGroup "remove" "user" (fun _ => true) (RState.mk userT [] []) ["login"] =
      RState.mk userT [] [] :=
  ⟨by decide, by decide,
    (C10_detection_silent userT userClean ["login"] true "remove" "user"
      (RState.mk userT [] []) (by decide)).2.1,
    (C10_detection_silent userT userClean ["login"] true "remove" "user"
      (RState.mk userT [] []) (by decide)).2.2.1,
    (C10_detection_silent userT userClean ["login"] true "remove" "user"
      (RState.mk userT [] []) (by decide)).2.2.2 (fun _ => true) rfl⟩

lemma mem_matchingRows {t : List Row} {cols : List String} {combo : List Val} {r : Row} :
    r ∈ matchingRows t cols combo ↔ r ∈ t ∧ proj cols r = combo := by
  simp [matchingRows]

lemma matchingRows_sublist (t : List Row) (cols : List String) (combo : List Val) :
    List.Sublist (matchingRows t cols combo) t := List.filter_sublist t

lemma deleteDupes_sublist (t : List Row) (cols : List String) (combo : List Val)
    (k : Nat) : List.Sublist (deleteDupes t cols combo k) t := List.filter_sublist t

lemma removeStep_sublist (cols : List String) (t : List Row) (combo : List Val) :
    List.Sublist (removeStep cols t combo) t := by
  unfold removeStep
  cases hm : minRowid (matchingRows t cols combo) with
  | none => exact List.Sublist.refl t
  | some k => exact deleteDupes_sublist t cols combo k

lemma removeFold_sublist (cols : List String) : ∀ (D : List (List Val)) (t : List Row),
    List.Sublist (removeFold cols t D) t := by
  intro D
  induction D with
  | nil => intro t; exact List.Sublist.refl t
  | cons d D ih =>
    intro t
    exact (ih (removeStep cols t d)).trans (removeStep_sublist cols t d)

lemma matchingRows_deleteDupes_other {cols : List String} {c c' : List Val}
    (t : List Row) (k : Nat) (h : c' ≠ c) :
    matchingRows (deleteDupes t cols c k) cols c' = matchingRows t cols c' := by
  unfold matchingRows deleteDupes
  rw [List.filter_filter]
  apply List.filter_congr
  intro r _
  by_cases hr : proj cols r = c'
  · simp [hr, h]
  · simp [hr]

lemma matchingRows_deleteDupes_self {cols : List String} {c : List Val}
    (t : List Row) (k : Nat) :
    matchingRows (deleteDupes t cols c k) cols c =
      (matchingRows t cols c).filter (fun r => r.rowid == k) := by
  unfold matchingRows deleteDupes
  rw [List.filter_filter, List.filter_filter]
  apply List.filter_congr
  intro r _
  by_cases hr : proj cols r = c
  · simp [hr, bne]
  · simp [hr]

lemma minRowid_eq_none : ∀ {l : List Row}, minRowid l = none → l = [] := by
  intro l
  cases l with
  | nil => intro _; rfl
  | cons a l =>
    intro h
    unfold minRowid at h
    cases hm : minRowid l with
    | none => rw [hm] at h; cases h
    | some m => rw [hm] at h; cases h

lemma minRowid_isSome {l : List Row} (h : l ≠ []) : ∃ k, minRowid l = some k := by
  cases hm : minRowid l with
  | none => exact absurd (minRowid_eq_none hm) h
  | some k => exact ⟨k, rfl⟩

lemma minRowid_mem : ∀ {l : List Row} {k : Nat}, minRowid l = some k →
    ∃ r, r ∈ l ∧ r.rowid = k := by
  intro l
  induction l with
  | nil => intro k h; cases h
  | cons a l ih =>
    intro k h
    unfold minRowid at h
    cases hm : minRowid l with
    | none =>
      rw [hm] at h
      injection h with h
      subst h
      exact ⟨a, List.mem_cons_self a l, rfl⟩
    | some m =>
      rw [hm] at h
      injection h with h
      subst h
      by_cases hle : a.rowid ≤ m
      · exact ⟨a, List.mem_cons_self a l, (min_eq_left hle).symm⟩
      · obtain ⟨r, hr, hrk⟩ := ih hm
        refine ⟨r, List.mem_cons_of_mem a hr, ?_⟩
        rw [min_eq_right (Nat.le_of_lt (Nat.lt_of_not_le hle))]
        exact hrk

lemma minRowid_le : ∀ {l : List Row} {k : Nat}, minRowid l = some k →
    ∀ r ∈ l, k ≤ r.rowid := by
  intro l
  induction l with
  | nil => intro k h; cases h
  | cons a l ih =>
    intro k h r hr
    unfold minRowid at h
    cases hm : minRowid l with
    | none =>
      rw [hm] at h
      injection h with h
      subst h
      have hnil : l = [] := minRowid_eq_none hm
      subst hnil
      rcases List.mem_cons.mp hr with rfl | hr'
      · exact Nat.le_refl _
      · cases hr'
    | some m =>
      rw [hm] at h
      injection h with h
      subst h
      rcases List.mem_cons.mp hr with rfl | hr'
      · exact min_le_left _ _
      · exact Nat.le_trans (min_le_right _ _) (ih hm r hr')

lemma filter_rowid_singleton : ∀ (l : List Row) (k : Nat),
    (l.map Row.rowid).Nodup → (∃ r, r ∈ l ∧ r.rowid = k) →
    ∃ r, l.filter (fun x => x.rowid == k) = [r] ∧ r ∈ l ∧ r.rowid = k := by
  intro l
  induction l with
  | nil =>
    intro k _ hk
    obtain ⟨r, hr, _⟩ := hk
    cases hr
  | cons a l ih =>
    intro k hnd hk
    rw [List.map_cons, List.nodup_cons] at hnd
    by_cases ha : a.rowid = k
    · have hnone : l.filter (fun x => x.rowid == k) = [] := by
        rw [List.filter_eq_nil_iff]
        intro x hx hxk
        rw [beq_iff_eq] at hxk
        exact hnd.1 (List.mem_map.mpr ⟨x, hx, by rw [hxk]; exact ha.symm⟩)
      refine ⟨a, ?_, List.mem_cons_self a l, ha⟩
      rw [List.filter_cons]
      simp [ha, hnone]
    · obtain ⟨r, hr, hrk⟩ := hk
      rcases List.mem_cons.mp hr with rfl | hr'
      · exact absurd hrk ha
      · obtain ⟨r', h1, h2, h3⟩ := ih k hnd.2 ⟨r, hr', hrk⟩
        refine ⟨r', ?_, List.mem_cons_of_mem a h2, h3⟩
        rw [List.filter_cons]
        simp [ha, h1]

lemma dupCombos_nodup (t : List Row) (cols : List String) : (dupCombos t cols).Nodup :=
  (List.nodup_dedup _).filter _

lemma mem_dupCombos {t : List Row} {cols : List String} {c : List Val} :
    c ∈ dupCombos t cols ↔ (∃ r ∈ t, proj cols r = c) ∧ 2 ≤ countCombo t cols c := by
  unfold dupCombos
  rw [List.mem_filter]
  simp [List.mem_dedup, List.mem_map]

lemma mem_dupCombos_of_two_le {t : List Row} {cols : List String} {c : List Val}
    (h : 2 ≤ countCombo t cols c) : c ∈ dupCombos t cols := by
  apply mem_dupCombos.mpr
  refine ⟨?_, h⟩
  have hne : matchingRows t cols c ≠ [] := by
    intro hnil
    rw [countCombo, hnil] at h
    simp at h
  obtain ⟨r, hr⟩ := List.exists_mem_of_ne_nil (matchingRows t cols c) hne
  obtain ⟨hrt, hrc⟩ := mem_matchingRows.mp hr
  exact ⟨r, hrt, hrc⟩

lemma countCombo_le_of_sublist {t' t : List Row} (cols : List String) (c : List Val)
    (h : List.Sublist t' t) : countCombo t' cols c ≤ countCombo t cols c :=
  (h.filter _).length_le

lemma matchingRows_removeStep_other {cols : List String} {c c' : List Val}
    (t : List Row) (h : c' ≠ c) :
    matchingRows (removeStep cols t c) cols c' = matchingRows t cols c' := by
  unfold removeStep
  cases hm : minRowid (matchingRows t cols c) with
  | none => rfl
  | some k => exact matchingRows_deleteDupes_other t k h

lemma removeStep_self_keeper {cols : List String} {c : List Val} (t : List Row)
    (hnd : (t.map Row.rowid).Nodup) (hne : matchingRows t cols c ≠ []) :
    ∃ r, matchingRows (removeStep cols t c) cols c = [r] ∧
      r ∈ matchingRows t cols c ∧
      ∀ r' ∈ matchingRows t cols c, r.rowid ≤ r'.rowid := by
  obtain ⟨k, hk⟩ := minRowid_isSome hne
  unfold removeStep
  rw [hk, matchingRows_deleteDupes_self]
  have hndm : ((matchingRows t cols c).map Row.rowid).Nodup :=
    ((matchingRows_sublist t cols c).map Row.rowid).nodup hnd
  obtain ⟨r, h1, h2, h3⟩ :=
    filter_rowid_singleton (matchingRows t cols c) k hndm (minRowid_mem hk)
  refine ⟨r, h1, h2, fun r' hr' => ?_⟩
  rw [h3]
  exact minRowid_le hk r' hr'

lemma matchingRows_removeFold_not_mem {cols : List String} {c : List Val} :
    ∀ (D : List (List Val)) (t : List Row), c ∉ D →
    matchingRows (removeFold cols t D) cols c = matchingRows t cols c := by
  intro D
  induction D with
  | nil => intro t _; rfl
  | cons d D ih =>
    intro t hc
    have hcd : c ≠ d := fun h => hc (h ▸ List.mem_cons_self d D)
    have hcD : c ∉ D := fun h => hc (List.mem_cons_of_mem d h)
    show matchingRows (removeFold cols (removeStep cols t d) D) cols c = _
    rw [ih _ hcD, matchingRows_removeStep_other t hcd]

lemma removeFold_keeper {cols : List String} :
    ∀ (D : List (List Val)) (t : List Row),
    (t.map Row.rowid).Nodup → D.Nodup →
    (∀ c ∈ D, matchingRows t cols c ≠ []) →
    ∀ c ∈ D, ∃ r, matchingRows (removeFold cols t D) cols c = [r] ∧
      r ∈ matchingRows t cols c ∧
      ∀ r' ∈ matchingRows t cols c, r.rowid ≤ r'.rowid := by
  intro D
  induction D with
  | nil => intro t _ _ _ c hc; cases hc
  | cons d D ih =>
    intro t hnd hD hne c hc
    have hd_notin : d ∉ D := (List.nodup_cons.mp hD).1
    have hD' : D.Nodup := (List.nodup_cons.mp hD).2
    have hnd1 : ((removeStep cols t d).map Row.rowid).Nodup :=
      ((removeStep_sublist cols t d).map Row.rowid).nodup hnd
    rcases List.mem_cons.mp hc with rfl | hc'
    · obtain ⟨r, h1, h2, h3⟩ :=
        removeStep_self_keeper t hnd (hne c (List.mem_cons_self c D))
      refine ⟨r, ?_, h2, h3⟩
      show matchingRows (removeFold cols (removeStep cols t c) D) cols c = [r]
      rw [matchingRows_removeFold_not_mem D _ hd_notin, h1]
    · have hcd : c ≠ d := fun h => hd_notin (h ▸ hc')
      have hpres : matchingRows (removeStep cols t d) cols c = matchingRows t cols c :=
        matchingRows_removeStep_other t hcd
      have hne' : ∀ c' ∈ D, matchingRows (removeStep cols t d) cols c' ≠ [] := by
        intro c' hc''
        have hc'd : c' ≠ d := fun h => hd_notin (h ▸ hc'')
        rw [matchingRows_removeStep_other t hc'd]
        exact hne c' (List.mem_cons_of_mem d hc'')
      obtain ⟨r, h1, h2, h3⟩ := ih (removeStep cols t d) hnd1 hD' hne' c hc'
      rw [hpres] at h2 h3
      exact ⟨r, h1, h2, h3⟩

lemma removeFold_dupCombos_le_one {cols : List String} (t : List Row)
    (hnd : (t.map Row.rowid).Nodup) (combo : List Val) :
    countCombo (removeFold cols t (dupCombos t cols)) cols combo ≤ 1 := by
  by_cases h2 : 2 ≤ countCombo t cols combo
  · have hc : combo ∈ dupCombos t cols := mem_dupCombos_of_two_le h2
    have hne : ∀ c ∈ dupCombos t cols, matchingRows t cols c ≠ [] := by
      intro c hcm hnil
      have h2c := (mem_dupCombos.mp hcm).2
      rw [countCombo, hnil] at h2c
      simp at h2c
    obtain ⟨r, h1, _, _⟩ :=
      removeFold_keeper (dupCombos t cols) t hnd (dupCombos_nodup t cols) hne combo hc
    unfold countCombo
    rw [h1]
    exact Nat.le_refl 1
  · have hle : countCombo t cols combo ≤ 1 := by omega
    exact Nat.le_trans
      (countCombo_le_of_sublist cols combo (removeFold_sublist cols _ t)) hle

lemma resolveDupe_remove_ok (tn : String) (t : List Row) (cols : List String)
    (combo : List Val) :
    resolveDupe "remove" tn t cols combo =
      match minRowid (matchingRows t cols combo) with
      | none => Except.ok (t, [])
      | some k => Except.ok (deleteDupes t cols combo k,
          ["Removidas " ++ toString (t.length - (deleteDupes t cols combo k).length) ++
            " duplicatas de " ++ tn ++ " para " ++ valsString (comboParams combo)]) := by
  unfold resolveDupe
  rw [checkedExec_ok _ _ _ (comboPlaceholders_eq combo)]
  cases hm : minRowid (matchingRows t cols combo) with
  | none => rfl
  | some k =>
    have hexec : checkedExec (comboPlaceholders combo + 1)
        (comboParams combo ++ [Val.intV (Int.ofNat k)]) (deleteDupes t cols combo k) =
        Except.ok (deleteDupes t cols combo k) :=
      checkedExec_ok _ _ _ (by rw [comboPlaceholders_eq, List.length_append]; rfl)
    simp only [hexec, beq_self_eq_true, if_true]

lemma stepDupe_remove_table (tn : String) (cols : List String) (st : RState)
    (combo : List Val) :
    (stepDupe "remove" tn cols st combo).table = removeStep cols st.table combo := by
  unfold stepDupe
  rw [resolveDupe_remove_ok]
  unfold removeStep
  cases hm : minRowid (matchingRows st.table cols combo) with
  | none => rfl
  | some k => rfl

lemma foldl_stepDupe_remove_table (tn : String) (cols : List String) :
    ∀ (D : List (List Val)) (st : RState),
    (D.foldl (stepDupe "remove" tn cols) st).table = removeFold cols st.table D := by
  intro D
  induction D with
  | nil => intro st; rfl
  | cons d D ih =>
    intro st
    rw [List.foldl_cons, ih (stepDupe "remove" tn cols st d), stepDupe_remove_table]
    rfl

lemma resolveGroup_remove_table (tn : String) (detF : List String → Bool)
    (st : RState) (cols : List String) :
    (resolveGroup "remove" tn detF st cols).table =
      removeFold cols st.table (find_duplicates st.table cols (detF cols)) := by
  unfold resolveGroup
  exact foldl_stepDupe_remove_table tn cols _ st

lemma find_duplicates_of_ne_nil {t : List Row} {cols : List String} (h : cols ≠ []) :
    find_duplicates t cols false = dupCombos t cols := by
  unfold find_duplicates
  have hie : cols.isEmpty = false := by
    cases cols with
    | nil => exact absurd rfl h
    | cons a l => rfl
  rw [hie]
  simp

lemma resolve_remove_single_table (tn : String) (t : List Row) (cols : List String)
    (detF : List String → Bool) :
    (resolve "remove" tn t [cols] detF).table =
      removeFold cols t (find_duplicates t cols (detF cols)) := by
  unfold resolve
  rw [List.foldl_cons, List.foldl_nil]
  exact resolveGroup_remove_table tn detF _ cols

lemma foldl_resolveGroup_remove_sublist (tn : String) (detF : List String → Bool) :
    ∀ (G : List (List String)) (st : RState),
    List.Sublist ((G.foldl (resolveGroup "remove" tn detF) st).table) st.table := by
  intro G
  induction G with
  | nil => intro st; exact List.Sublist.refl _
  | cons g G ih =>
    intro st
    rw [List.foldl_cons]
    refine (ih _).trans ?_
    rw [resolveGroup_remove_table]
    exact removeFold_sublist g _ st.table

lemma foldl_resolveGroup_count_le_one (tn : String) (detF : List String → Bool) :
    ∀ (G : List (List String)) (st : RState),
    (st.table.map Row.rowid).Nodup →
    (∀ g ∈ G, g ≠ []) → (∀ g ∈ G, detF g = false) →
    ∀ g ∈ G, ∀ combo : List Val,
      countCombo ((G.foldl (resolveGroup "remove" tn detF) st).table) g combo ≤ 1 := by
  intro G
  induction G with
  | nil => intro st _ _ _ g hg; cases hg
  | cons g0 G ih =>
    intro st hnd hne hdf g hg combo
    rw [List.foldl_cons]
    have hg0ne : g0 ≠ [] := hne g0 (List.mem_cons_self g0 G)
    have hdf0 : detF g0 = false := hdf g0 (List.mem_cons_self g0 G)
    have htab : (resolveGroup "remove" tn detF st g0).table =
        removeFold g0 st.table (dupCombos st.table g0) := by
      rw [resolveGroup_remove_table, hdf0, find_duplicates_of_ne_nil hg0ne]
    have hnd1 : ((resolveGroup "remove" tn detF st g0).table.map Row.rowid).Nodup := by
      rw [htab]
      exact ((removeFold_sublist g0 _ st.table).map Row.rowid).nodup hnd
    rcases List.mem_cons.mp hg with hgg | hg'
    · subst hgg
      have hle : countCombo (resolveGroup "remove" tn detF st g).table g combo ≤ 1 := by
        rw [htab]
        exact removeFold_dupCombos_le_one st.table hnd combo
      exact Nat.le_trans
        (countCombo_le_of_sublist g combo (foldl_resolveGroup_remove_sublist tn detF G _))
        hle
    · exact ih (resolveGroup "remove" tn detF st g0) hnd1
        (fun x hx => hne x (List.mem_cons_of_mem g0 hx))
        (fun x hx => hdf x (List.mem_cons_of_mem g0 hx)) g hg' combo

/-- C3: under the remove strategy, with pairwise distinct rowids, resolving
any list of nonempty constraint groups leaves every value combination of every
group with at most one row, and for a violating combination of one group the
single surviving row is exactly the original member with the lowest rowid. -/
theorem C3_remove_unique_and_keeper (t : List Row) (cols : List String) (tn : String)
    (hnd : (t.map Row.rowid).Nodup) (hcols : cols ≠ []) :
    (∀ G : List (List String), (∀ g ∈ G, g ≠ []) →
      ∀ g ∈ G, ∀ combo : List Val,
        countCombo ((resolve "remove" tn t G (fun _ => false)).table) g combo ≤ 1) ∧
    (∀ combo : List Val, 2 ≤ countCombo t cols combo →
      ∃ r : Row,
        matchingRows ((resolve "remove" tn t [cols] (fun _ => false)).table)
          cols combo = [r] ∧
        r ∈ t ∧ proj cols r = combo ∧
        ∀ r' ∈ t, proj cols r' = combo → r.rowid ≤ r'.rowid) := by
  constructor
  · intro G hGne g hg combo
    exact foldl_resolveGroup_count_le_one tn (fun _ => false) G (RState.mk t [] [])
      hnd hGne (fun _ _ => rfl) g hg combo
  · intro combo h2
    have hc : combo ∈ dupCombos t cols := mem_dupCombos_of_two_le h2
    have hne : ∀ c ∈ dupCombos t cols, matchingRows t cols c ≠ [] := by
      intro c hcm hnil
      have h2c := (mem_dupCombos.mp hcm).2
      rw [countCombo, hnil] at h2c
      simp at h2c
    obtain ⟨r, h1, h2m, h3⟩ :=
      removeFold_keeper (dupCombos t cols) t hnd (dupCombos_nodup t cols) hne combo hc
    refine ⟨r, ?_, (mem_matchingRows.mp h2m).1, (mem_matchingRows.mp h2m).2, ?_⟩
    · rw [resolve_remove_single_table, find_duplicates_of_ne_nil hcols]
      exact h1
    · intro r' hr' hpr'
      exact h3 r' (mem_matchingRows.mpr ⟨hr', hpr'⟩)

/-- C3 witness: the scenario table with the login group. -/
theorem C3_remove_unique_and_keeper_witness :
    ((userT.map Row.rowid).Nodup ∧ ["login"] ≠ ([] : List String)) ∧
    ((∀ G : List (List String), (∀ g ∈ G, g ≠ []) →
      ∀ g ∈ G, ∀ combo : List Val,
        countCombo ((resolve "remove" "user" userT G (fun _ => false)).table) g combo ≤ 1) ∧
    (∀ combo : List Val, 2 ≤ countCombo userT ["login"] combo →
      ∃ r : Row,
        matchingRows ((resolve "remove" "user" userT [["login"]] (fun _ => false)).table)
          ["login"] combo = [r] ∧
        r ∈ userT ∧ proj ["login"] r = combo ∧
        ∀ r' ∈ userT, proj ["login"] r' = combo → r.rowid ≤ r'.rowid)) :=
  ⟨⟨by decide, by decide⟩,
    C3_remove_unique_and_keeper userT ["login"] "user" (by decide) (by decide)⟩

end SM
